import Mathlib

/-!
Verification of the `protocol` package of launchtunnel-cli: the frame
codec (`frame.go`), the stream abstraction (`stream.go`) and the
multiplexer (`mux.go`), shallowly embedded as pure Lean functions.
Bytes are `Nat` values below 256; byte slices are `List Nat`; an
`io.Reader` is the list of bytes it has left to deliver; Go maps are
association lists; Go channels are explicit FIFO queues inside the
sequential state.
-/

namespace Protocol

/-- Frame type constants from frame.go. -/
def FrameOpenStream : Nat := 0x01
def FrameData : Nat := 0x02
def FrameCloseStream : Nat := 0x03
def FramePing : Nat := 0x04
def FramePong : Nat := 0x05

/-- MaxPayloadSize from frame.go: 10 MiB. -/
def MaxPayloadSize : Nat := 10 * 1024 * 1024

/-- frameHeaderSize from frame.go: 1 (type) + 4 (stream_id) + 4 (payload_len). -/
def frameHeaderSize : Nat := 9

/-- The modulus of Go's uint32 arithmetic. -/
def u32Mod : Nat := 2 ^ 32

/-- Frame from frame.go: `{Type byte; StreamID uint32; Payload []byte}`. -/
structure Frame where
  type : Nat
  streamID : Nat
  payload : List Nat
  deriving DecidableEq

/-- binary.BigEndian.PutUint32: the four big-endian bytes of `v`, written
with the numerals 2^24, 2^16, 2^8. For `v < 2^32` these are its bytes;
larger values truncate exactly as Go's uint32 conversion does. -/
def putU32 (v : Nat) : List Nat :=
  [v / 16777216 % 256, v / 65536 % 256, v / 256 % 256, v % 256]

/-- binary.BigEndian.Uint32 on the first four bytes of a list. -/
def readU32 (b : List Nat) : Nat :=
  b.getD 0 0 * 16777216 + b.getD 1 0 * 65536 + b.getD 2 0 * 256 + b.getD 3 0

/-- EncodeFrame from frame.go: `[1B type][4B stream_id][4B payload_len][payload]`,
big-endian, one contiguous buffer. -/
def EncodeFrame (f : Frame) : List Nat :=
  f.type :: (putU32 f.streamID ++ (putU32 f.payload.length ++ f.payload))

/-- The error cases of DecodeFrame in frame.go. -/
inductive DecodeError where
  | shortHeader
  | invalidType (t : Nat)
  | payloadTooLarge (n : Nat)
  | shortPayload
  deriving DecidableEq

/-- DecodeFrame from frame.go. Besides the Go result it returns the
number of bytes consumed from the reader and the sizes of the payload
buffers allocated (`make([]byte, payloadLen)` happens only after the
length check), so the claims about consumption and allocation are
statable. Reading the 9-byte header with io.ReadFull needs nine bytes
to be available; a shorter reader fails after consuming everything it
had. -/
def DecodeFrame (input : List Nat) : Except DecodeError Frame × Nat × List Nat :=
  match input with
  | t :: b1 :: b2 :: b3 :: b4 :: b5 :: b6 :: b7 :: b8 :: rest =>
    if t < FrameOpenStream ∨ t > FramePong then
      (.error (.invalidType t), frameHeaderSize, [])
    else
      let streamID := readU32 [b1, b2, b3, b4]
      let payloadLen := readU32 [b5, b6, b7, b8]
      if payloadLen > MaxPayloadSize then
        (.error (.payloadTooLarge payloadLen), frameHeaderSize, [])
      else if rest.length < payloadLen then
        (.error .shortPayload, frameHeaderSize + rest.length, [payloadLen])
      else
        (.ok ⟨t, streamID, rest.take payloadLen⟩, frameHeaderSize + payloadLen, [payloadLen])
  | _ => (.error .shortHeader, input.length, [])

lemma readU32_putU32 (v : Nat) : readU32 (putU32 v) = v % u32Mod := by
  simp [readU32, putU32, u32Mod]
  omega

/-- C1: decoding the encoding of a frame with a valid type and a payload of
at most 10 MiB returns the frame itself: same type, same 32-bit stream ID,
payload equal byte for byte, and no error. -/
theorem frame_roundtrip (f : Frame)
    (h1 : FrameOpenStream ≤ f.type) (h2 : f.type ≤ FramePong)
    (h3 : f.streamID < u32Mod) (h4 : f.payload.length ≤ MaxPayloadSize) :
    (DecodeFrame (EncodeFrame f)).1 = .ok f := by
  have h1' : 1 ≤ f.type := h1
  have h2' : f.type ≤ 5 := h2
  have h4' : f.payload.length ≤ 10485760 := h4
  have hsid : readU32 (putU32 f.streamID) = f.streamID := by
    rw [readU32_putU32]; exact Nat.mod_eq_of_lt h3
  have hlen : readU32 (putU32 f.payload.length) = f.payload.length := by
    rw [readU32_putU32]
    apply Nat.mod_eq_of_lt
    have hm : MaxPayloadSize < u32Mod := by decide
    omega
  simp only [putU32] at hsid hlen
  simp only [EncodeFrame, putU32, List.cons_append, List.nil_append, DecodeFrame]
  rw [hsid, hlen]
  have ht : ¬(f.type < FrameOpenStream ∨ f.type > FramePong) := by
    simp only [FrameOpenStream, FramePong]
    omega
  rw [if_neg ht, if_neg (by simp only [MaxPayloadSize]; omega :
    ¬f.payload.length > MaxPayloadSize), if_neg (by omega :
    ¬f.payload.length < f.payload.length)]
  simp [List.take_length]

/-- C1 witness: the round trip evaluated at a concrete DATA frame. -/
theorem frame_roundtrip_witness :
    (DecodeFrame (EncodeFrame ⟨0x02, 7, [10, 20, 30]⟩)).1 = .ok ⟨0x02, 7, [10, 20, 30]⟩ :=
  frame_roundtrip ⟨0x02, 7, [10, 20, 30]⟩ (by decide) (by decide) (by decide) (by decide)

/-- C2: DecodeFrame fails exactly on the four bad-input shapes — fewer than
nine bytes available for the header, a type byte outside 0x01..0x05, a
declared payload length over 10 MiB, or fewer payload bytes available than
declared — and in the invalid-type and payload-too-large cases it consumes
exactly the nine header bytes and allocates no payload buffer; every payload
buffer it ever allocates is of a size that already passed the length check. -/
theorem decode_error_taxonomy (input : List Nat) :
    (input.length < frameHeaderSize → (DecodeFrame input).1 = .error .shortHeader)
    ∧ (∀ t b1 b2 b3 b4 b5 b6 b7 b8 rest,
        input = t :: b1 :: b2 :: b3 :: b4 :: b5 :: b6 :: b7 :: b8 :: rest →
        ((∃ e, (DecodeFrame input).1 = .error e) ↔
          ((t < FrameOpenStream ∨ t > FramePong)
            ∨ readU32 [b5, b6, b7, b8] > MaxPayloadSize
            ∨ rest.length < readU32 [b5, b6, b7, b8]))
        ∧ ((t < FrameOpenStream ∨ t > FramePong) →
            (DecodeFrame input).2 = (frameHeaderSize, []))
        ∧ (¬(t < FrameOpenStream ∨ t > FramePong) →
            readU32 [b5, b6, b7, b8] > MaxPayloadSize →
            (DecodeFrame input).2 = (frameHeaderSize, [])))
    ∧ (∀ n ∈ (DecodeFrame input).2.2, n ≤ MaxPayloadSize) := by
  refine ⟨?_, ?_, ?_⟩
  · intro h
    rcases input with _ | ⟨t, _ | ⟨b1, _ | ⟨b2, _ | ⟨b3, _ | ⟨b4, _ | ⟨b5, _ | ⟨b6,
      _ | ⟨b7, _ | ⟨b8, rest⟩⟩⟩⟩⟩⟩⟩⟩⟩ <;>
      first
        | rfl
        | (exfalso; simp [frameHeaderSize] at h; omega)
  · rintro t b1 b2 b3 b4 b5 b6 b7 b8 rest rfl
    by_cases hT : t < FrameOpenStream ∨ t > FramePong
    · simp [DecodeFrame, hT]
    · by_cases hL : readU32 [b5, b6, b7, b8] > MaxPayloadSize
      · simp [DecodeFrame, hT, hL]
      · by_cases hR : rest.length < readU32 [b5, b6, b7, b8]
        · simp [DecodeFrame, hT, hL, hR]
        · simp [DecodeFrame, hT, hL, hR]
  · intro n hn
    rcases input with _ | ⟨t, _ | ⟨b1, _ | ⟨b2, _ | ⟨b3, _ | ⟨b4, _ | ⟨b5, _ | ⟨b6,
      _ | ⟨b7, _ | ⟨b8, rest⟩⟩⟩⟩⟩⟩⟩⟩⟩ <;>
      simp [DecodeFrame] at hn
    by_cases hT : t < FrameOpenStream ∨ t > FramePong
    · simp [hT] at hn
    · by_cases hL : readU32 [b5, b6, b7, b8] > MaxPayloadSize
      · simp [hT, hL] at hn
      · by_cases hR : rest.length < readU32 [b5, b6, b7, b8]
        · simp [hT, hL, hR] at hn
          omega
        · simp [hT, hL, hR] at hn
          omega

/-- C2 witness: an invalid type byte 0x06 yields an error after consuming
exactly the nine header bytes and allocating nothing. -/
theorem decode_error_taxonomy_witness :
    (DecodeFrame [0x06, 0, 0, 0, 0, 0, 0, 0, 0]).2 = (frameHeaderSize, []) :=
  (((decode_error_taxonomy [0x06, 0, 0, 0, 0, 0, 0, 0, 0]).2.1
      0x06 0 0 0 0 0 0 0 0 [] rfl).2.1) (by decide)

/-! ## Stream (stream.go)

A `Stream` is modelled by its identifier, the buffered chunks of its
`dataCh` channel (FIFO of payloads), the leftover `readBuf` of a
partially consumed chunk, and whether its `closed` channel has been
closed (the `closeOnce` guard and the `closed` channel collapse to one
boolean in a sequential model). -/

structure Stream where
  id : Nat
  dataQ : List (List Nat)
  readBuf : List Nat
  closed : Bool
  deriving DecidableEq

/-- newStream from stream.go: empty data channel, no leftover, open. -/
def newStream (id : Nat) : Stream :=
  ⟨id, [], [], false⟩

/-- The three ways a call to Stream.Read can end in stream.go: return a
chunk of bytes with the updated stream, return io.EOF, or block waiting
on the data channel. -/
inductive ReadRes where
  | bytes (out : List Nat) (s : Stream)
  | eof
  | blocked
  deriving DecidableEq

/-- Stream.Read from stream.go, for a caller buffer of length `n`:
leftover bytes from a previously partially consumed chunk are drained
first; otherwise the next chunk is dequeued from the data channel,
`copy` takes `min n (chunk length)` bytes and the remainder is stashed
in `readBuf`; with no data buffered, a closed stream yields io.EOF
(the post-closure drain finds the channel empty) and an open one
blocks. -/
def Stream.Read (s : Stream) (n : Nat) : ReadRes :=
  if s.readBuf ≠ [] then
    .bytes (s.readBuf.take n) { s with readBuf := s.readBuf.drop n }
  else
    match s.dataQ with
    | d :: rest => .bytes (d.take n) { s with dataQ := rest, readBuf := d.drop n }
    | [] => if s.closed then .eof else .blocked

/-- Stream.pushData from stream.go: the mux readLoop appends a payload to
the data channel; a closed stream drops it. -/
def Stream.pushData (s : Stream) (d : List Nat) : Stream :=
  if s.closed then s else { s with dataQ := s.dataQ ++ [d] }

/-- A sequence of Read calls with the given buffer sizes, collecting the
returned byte slices in order; stops if a read would block or reports
end of stream. -/
def runReads : List Nat → Stream → List Nat × Stream
  | [], s => ([], s)
  | n :: ns, s =>
    match s.Read n with
    | .bytes out s' =>
      let r := runReads ns s'
      (out ++ r.1, r.2)
    | _ => ([], s)

/-- One Read call conserves the bytes held by the stream. -/
lemma read_conserves (s : Stream) (n : Nat) (out : List Nat) (s' : Stream)
    (h : s.Read n = .bytes out s') :
    out ++ (s'.readBuf ++ s'.dataQ.flatten) = s.readBuf ++ s.dataQ.flatten := by
  unfold Stream.Read at h
  by_cases hb : s.readBuf ≠ []
  · rw [if_pos hb] at h
    cases h
    simp only []
    rw [← List.append_assoc, List.take_append_drop]
  · rw [if_neg hb] at h
    push_neg at hb
    match hq : s.dataQ with
    | [] =>
      rw [hq] at h
      split_ifs at h
    | d :: rest =>
      rw [hq] at h
      cases h
      simp only [hb, List.flatten_cons, List.nil_append]
      rw [← List.append_assoc, List.take_append_drop]

/-- Any sequence of Read calls conserves the bytes held by the stream. -/
lemma runReads_conserves (ns : List Nat) (s : Stream) :
    (runReads ns s).1 ++ ((runReads ns s).2.readBuf ++ (runReads ns s).2.dataQ.flatten)
      = s.readBuf ++ s.dataQ.flatten := by
  induction ns generalizing s with
  | nil => simp [runReads]
  | cons n ns ih =>
    unfold runReads
    match hr : s.Read n with
    | .bytes out s' =>
      have := read_conserves s n out s' hr
      simp only []
      rw [List.append_assoc]
      rw [ih s']
      exact this
    | .eof => simp
    | .blocked => simp

/-- Delivering payloads to an open stream queues them in order. -/
lemma pushAll_dataQ (ps : List (List Nat)) (s : Stream) (h : s.closed = false) :
    ps.foldl Stream.pushData s = { s with dataQ := s.dataQ ++ ps } := by
  induction ps generalizing s with
  | nil => simp
  | cons p ps ih =>
    simp only [List.foldl_cons]
    rw [Stream.pushData, if_neg (by simp [h])]
    rw [ih _ (by simp [h])]
    simp

/-- C3: deliver payloads `p_1 … p_n` to a fresh open stream via pushData,
then issue Read calls with arbitrary buffer sizes; if the reads drain the
stream, the concatenation of the returned byte slices is exactly
`p_1 ++ p_2 ++ … ++ p_n` — bytes come out in delivery order, leftovers of a
partially consumed payload are served before the next payload is dequeued,
and payload boundaries are not preserved. -/
theorem stream_read_ordering (sid : Nat) (ps : List (List Nat)) (sizes : List Nat)
    (hdrain : (runReads sizes (ps.foldl Stream.pushData (newStream sid))).2.readBuf = []
      ∧ (runReads sizes (ps.foldl Stream.pushData (newStream sid))).2.dataQ = []) :
    (runReads sizes (ps.foldl Stream.pushData (newStream sid))).1 = ps.flatten := by
  have hp : ps.foldl Stream.pushData (newStream sid) = { newStream sid with dataQ := ps } := by
    rw [pushAll_dataQ ps (newStream sid) rfl]
    simp [newStream]
  have hc := runReads_conserves sizes (ps.foldl Stream.pushData (newStream sid))
  rw [hdrain.1, hdrain.2] at hc
  rw [hp] at hc ⊢
  simpa [newStream] using hc

/-- C3 witness: payloads `[1,2,3]` and `[4,5]` read with buffer sizes
2, 2, 2 come out as `[1,2,3,4,5]`. -/
theorem stream_read_ordering_witness :
    (runReads [2, 2, 2] ([[1, 2, 3], [4, 5]].foldl Stream.pushData (newStream 1))).1
      = [1, 2, 3, 4, 5] :=
  stream_read_ordering 1 [[1, 2, 3], [4, 5]] [2, 2, 2] (by decide)

/-! ## Mux (mux.go)

The multiplexer state is sequentialised: the `streams` map becomes an
association list from stream ID to a handle (an index into `store`, the
list of every Stream object created so far — Go stream values outlive
their registry entry, so the registry cannot own them); `acceptCh`
becomes its buffered contents plus a closed flag; `writeCh` becomes the
FIFO of encoded frames handed to the writeLoop; the `closed` channel
and the `sync.Once` collapse to one boolean. -/

/-- The error values of mux.go and stream.go. `streamExists` is declared
in mux.go (`ErrStreamExists`) but no code path produces it. -/
inductive Err where
  | muxClosed
  | streamExists
  | unknownStream
  | tooManyStreams
  | streamClosed
  deriving DecidableEq

structure Mux where
  store : List Stream
  streams : List (Nat × Nat)
  nextID : Nat
  isServer : Bool
  maxStreams : Nat
  acceptBuf : List Nat
  acceptChClosed : Bool
  outQ : List (List Nat)
  closed : Bool
  deriving DecidableEq

/-- Go map lookup `m.streams[id]`. -/
def assocGet (k : Nat) : List (Nat × Nat) → Option Nat
  | [] => none
  | (k', v) :: rest => if k' = k then some v else assocGet k rest

/-- Go map assignment `m.streams[id] = s`: replace or insert. -/
def assocSet (k v : Nat) : List (Nat × Nat) → List (Nat × Nat)
  | [] => [(k, v)]
  | (k', v') :: rest => if k' = k then (k, v) :: rest else (k', v') :: assocSet k v rest

/-- NewMux from mux.go: empty registry, nextID 2 for the server role and
1 for the client role, no stream cap, empty accept and write queues. -/
def NewMux (isServer : Bool) : Mux :=
  ⟨[], [], if isServer then 2 else 1, isServer, 0, [], false, [], false⟩

/-- Mux.writeWS from mux.go: enqueue an encoded frame on writeCh, or fail
with ErrMuxClosed once the mux-closed signal has fired (either via the
select's closed arm or via the recover around a send on the closed
channel). -/
def Mux.writeWS (m : Mux) (data : List Nat) : Mux × Option Err :=
  if m.closed then (m, some .muxClosed) else ({ m with outQ := m.outQ ++ [data] }, none)

/-- Mux.removeStream from mux.go: `delete(m.streams, id)`. -/
def Mux.removeStream (m : Mux) (id : Nat) : Mux :=
  { m with streams := m.streams.filter (fun e => e.1 != id) }

/-- Stream.closeRead from stream.go: close the stream's closed channel
(through the shared closeOnce); no frame is emitted. -/
def Stream.closeRead (s : Stream) : Stream :=
  { s with closed := true }

/-- closeRead applied through the store at a handle. -/
def Mux.closeReadAt (m : Mux) (h : Nat) : Mux :=
  { m with store := m.store.set h (m.store.getD h (newStream 0)).closeRead }

/-- Mux.makeWriteFn from mux.go: the per-stream write callback; refuses
with ErrMuxClosed after shutdown, otherwise encodes one DATA frame and
enqueues it. -/
def Mux.makeWriteFn (m : Mux) (id : Nat) (payload : List Nat) : Mux × Option Err :=
  if m.closed then (m, some .muxClosed)
  else m.writeWS (EncodeFrame ⟨FrameData, id, payload⟩)

/-- Mux.makeCloseFn from mux.go: enqueue one CLOSE_STREAM frame (error
ignored) and drop the registry entry. -/
def Mux.makeCloseFn (m : Mux) (id : Nat) : Mux :=
  ((m.writeWS (EncodeFrame ⟨FrameCloseStream, id, []⟩)).1).removeStream id

/-- Stream.Write from stream.go acting on the stream at handle `h`: a
closed stream yields (0, ErrStreamClosed) before any frame is built (the
check is re-run under the write lock); otherwise the input is copied and
handed to the mux write callback as a single DATA frame, and the full
input length is reported on success. -/
def Stream.Write (m : Mux) (h : Nat) (p : List Nat) : Mux × Nat × Option Err :=
  let s := m.store.getD h (newStream 0)
  if s.closed then (m, 0, some .streamClosed)
  else
    match m.makeWriteFn s.id p with
    | (m', none) => (m', p.length, none)
    | (m', some e) => (m', 0, some e)

/-- Stream.Close from stream.go acting on the stream at handle `h`: under
the closeOnce guard, close the closed channel and run the mux close
callback; always returns nil. A second call (or a call after closeRead or
mux shutdown consumed the guard) does nothing. -/
def Stream.Close (m : Mux) (h : Nat) : Mux × Option Err :=
  let s := m.store.getD h (newStream 0)
  if s.closed then (m, none)
  else ((m.closeReadAt h).makeCloseFn s.id, none)

/-- Mux.OpenStream from mux.go: refuse after shutdown; enforce the
optional cap; allocate the next ID of the role's parity (uint32
arithmetic, +2 per allocation); register the new stream; enqueue one
OPEN_STREAM frame, rolling the registration back if that fails. Returns
the allocated ID and the store handle of the new stream. -/
def Mux.OpenStream (m : Mux) : Mux × Except Err (Nat × Nat) :=
  if m.closed then (m, .error .muxClosed)
  else if 0 < m.maxStreams ∧ m.maxStreams ≤ m.streams.length then
    (m, .error .tooManyStreams)
  else
    let id := m.nextID
    let m1 := { m with nextID := (m.nextID + 2) % u32Mod }
    let h := m1.store.length
    let m2 := { m1 with store := m1.store ++ [newStream id],
                        streams := assocSet id h m1.streams }
    match m2.writeWS (EncodeFrame ⟨FrameOpenStream, id, []⟩) with
    | (m3, none) => (m3, .ok (id, h))
    | (m3, some e) => (m3.removeStream id, .error e)

/-- Mux.handleOpenStream from mux.go: construct a fresh stream, register
it under the remote's ID (overwriting any existing entry, as Go map
assignment does), and enqueue it on the accept channel unless the
mux-closed signal wins the select. -/
def Mux.handleOpenStream (m : Mux) (id : Nat) : Mux :=
  let h := m.store.length
  let m1 := { m with store := m.store ++ [newStream id],
                     streams := assocSet id h m.streams }
  if m1.closed then m1 else { m1 with acceptBuf := m1.acceptBuf ++ [h] }

/-- Mux.handleData from mux.go: deliver the payload to the registered
stream's data channel; an unknown ID is silently dropped. -/
def Mux.handleData (m : Mux) (id : Nat) (payload : List Nat) : Mux :=
  match assocGet id m.streams with
  | none => m
  | some h =>
    { m with store := m.store.set h ((m.store.getD h (newStream 0)).pushData payload) }

/-- Mux.handleCloseStream from mux.go: close the registered stream's read
side and remove it from the registry; an unknown ID is silently dropped. -/
def Mux.handleCloseStream (m : Mux) (id : Nat) : Mux :=
  match assocGet id m.streams with
  | none => m
  | some h => (m.closeReadAt h).removeStream id

/-- Mux.handlePing from mux.go: enqueue one PONG frame (stream ID 0,
empty payload), ignoring a write error. -/
def Mux.handlePing (m : Mux) : Mux :=
  (m.writeWS (EncodeFrame ⟨FramePong, 0, []⟩)).1

/-- Mux.handlePong from mux.go: invokes the registered callback, which
does not touch the mux state. -/
def Mux.handlePong (m : Mux) : Mux :=
  m

/-- The dispatch switch of Mux.readLoop. -/
def Mux.dispatch (m : Mux) (f : Frame) : Mux :=
  if f.type = FrameOpenStream then m.handleOpenStream f.streamID
  else if f.type = FrameData then m.handleData f.streamID f.payload
  else if f.type = FrameCloseStream then m.handleCloseStream f.streamID
  else if f.type = FramePing then m.handlePing
  else if f.type = FramePong then m.handlePong
  else m

/-- One iteration of Mux.readLoop on an inbound transport message:
messages shorter than the header are discarded, decode errors are
discarded, and nothing is dispatched once the mux-closed signal has
fired. -/
def Mux.readStep (m : Mux) (msg : List Nat) : Mux :=
  if msg.length < frameHeaderSize then m
  else
    match (DecodeFrame msg).1 with
    | .error _ => m
    | .ok f => if m.closed then m else m.dispatch f

/-- The readLoop over a sequence of inbound transport messages. -/
def Mux.processMsgs (m : Mux) (msgs : List (List Nat)) : Mux :=
  msgs.foldl Mux.readStep m

/-- Mux.shutdown from mux.go: one-shot teardown — set the mux-closed
signal, close the read side of every registered stream, empty the
registry, and close the accept channel (the writeLoop drain and the
WebSocket close touch only the external transport). -/
def Mux.shutdown (m : Mux) : Mux :=
  if m.closed then m
  else
    let m1 := (m.streams.map Prod.snd).foldl Mux.closeReadAt m
    { m1 with closed := true, streams := [], acceptChClosed := true }

/-- The possible outcomes of Mux.AcceptStream from mux.go, as a relation:
Go's select chooses among ready arms, so with streams still buffered in
the (possibly already closed) accept channel a delivery and the
mux-closed arm can both fire; a receive from the closed accept channel
with an empty buffer reports ErrMuxClosed. The external-context
cancellation arm is not modelled. -/
inductive AcceptCan : Mux → Except Err (Nat × Mux) → Prop where
  | deliver (m : Mux) (h : Nat) (t : List Nat) :
      m.acceptBuf = h :: t → AcceptCan m (.ok (h, { m with acceptBuf := t }))
  | chClosed (m : Mux) :
      m.acceptBuf = [] → m.acceptChClosed = true → AcceptCan m (.error .muxClosed)
  | muxClosed (m : Mux) :
      m.closed = true → AcceptCan m (.error .muxClosed)

/-- `n` successive OpenStream calls, collecting the allocated IDs of the
successful ones. -/
def Mux.openMany : Nat → Mux → Mux × List Nat
  | 0, m => (m, [])
  | n + 1, m =>
    match m.OpenStream with
    | (m', .ok (id, _)) =>
      let r := Mux.openMany n m'
      (r.1, id :: r.2)
    | (m', .error _) => (m', [])

/-! ### Helper lemmas about the store and the registry -/

lemma getD_set_self {α : Type} (d : α) :
    ∀ (l : List α) (i : Nat) (a : α), i < l.length → (l.set i a).getD i d = a := by
  intro l
  induction l with
  | nil => intro i a hlt; simp at hlt
  | cons x xs ih =>
    intro i a hlt
    cases i with
    | zero => rfl
    | succ n => simpa using ih n a (by simpa using hlt)

lemma getD_set_ne {α : Type} (d : α) :
    ∀ (l : List α) (i j : Nat) (a : α), i ≠ j → (l.set i a).getD j d = l.getD j d := by
  intro l
  induction l with
  | nil => intro i j a _; simp
  | cons x xs ih =>
    intro i j a hne
    cases i with
    | zero =>
      cases j with
      | zero => exact absurd rfl hne
      | succ k => rfl
    | succ n =>
      cases j with
      | zero => rfl
      | succ k => simpa using ih n k a (by omega)

lemma assocGet_assocSet_self (k v : Nat) :
    ∀ l : List (Nat × Nat), assocGet k (assocSet k v l) = some v := by
  intro l
  induction l with
  | nil => simp [assocGet, assocSet]
  | cons e rest ih =>
    by_cases he : e.1 = k
    · simp [assocSet, assocGet, he]
    · simp [assocSet, assocGet, he, ih]

lemma assocGet_mem_values (k v : Nat) :
    ∀ l : List (Nat × Nat), assocGet k l = some v → v ∈ l.map Prod.snd := by
  intro l
  induction l with
  | nil => intro h; simp [assocGet] at h
  | cons e rest ih =>
    intro h
    by_cases he : e.1 = k
    · simp [assocGet, he] at h
      simp [← h]
    · simp [assocGet, he] at h
      simp [ih h]

/-- C4 (amended): writing on an open stream of a live mux enqueues exactly
one DATA frame whose payload is the caller's bytes (no splitting; the slice
handed to the mux is a copy, which a by-value embedding renders as the
payload equalling `p`) and reports the full length with no error, touching
nothing but the outbound queue; writing on a closed stream reports
(0, ErrStreamClosed) and submits nothing; writing on an open stream whose
mux has shut down reports (0, ErrMuxClosed) and submits nothing. -/
theorem stream_write_spec (m : Mux) (h : Nat) (p : List Nat) :
    ((m.store.getD h (newStream 0)).closed = true →
      Stream.Write m h p = (m, 0, some .streamClosed))
    ∧ ((m.store.getD h (newStream 0)).closed = false → m.closed = false →
      Stream.Write m h p =
        ({ m with outQ := m.outQ ++
            [EncodeFrame ⟨FrameData, (m.store.getD h (newStream 0)).id, p⟩] },
          p.length, none))
    ∧ ((m.store.getD h (newStream 0)).closed = false → m.closed = true →
      Stream.Write m h p = (m, 0, some .muxClosed)) := by
  refine ⟨?_, ?_, ?_⟩
  · intro hc
    simp only [Stream.Write]
    rw [if_pos hc]
  · intro hc hm
    simp only [Stream.Write, Mux.makeWriteFn, Mux.writeWS]
    rw [if_neg (by rw [hc]; simp), if_neg (by rw [hm]; simp), if_neg (by rw [hm]; simp)]
  · intro hc hm
    simp only [Stream.Write, Mux.makeWriteFn]
    rw [if_neg (by rw [hc]; simp), if_pos hm]

/-- C4 counterexample to the claim as stated: a remote duplicate
OPEN_STREAM for ID 5 displaces the first stream from the registry without
closing it, so mux shutdown leaves it open; Write on that open stream then
returns (0, ErrMuxClosed) and submits no DATA frame — not (len(p), nil) as
the claim demands for every non-closed stream. -/
theorem stream_write_spec_cex :
    (((Mux.handleOpenStream (Mux.handleOpenStream (NewMux true) 5) 5).shutdown).store.getD 0
        (newStream 0)).closed = false
    ∧ (Stream.Write ((Mux.handleOpenStream (Mux.handleOpenStream (NewMux true) 5) 5).shutdown)
        0 [9]).2 = (0, some .muxClosed)
    ∧ (Stream.Write ((Mux.handleOpenStream (Mux.handleOpenStream (NewMux true) 5) 5).shutdown)
        0 [9]).2 ≠ ([9].length, (none : Option Err)) := by
  decide

/-- C4 witness: a two-byte write on a live one-stream mux. -/
theorem stream_write_spec_witness :
    Stream.Write ⟨[⟨1, [], [], false⟩], [(1, 0)], 3, false, 0, [], false, [], false⟩ 0 [9, 9]
      = (⟨[⟨1, [], [], false⟩], [(1, 0)], 3, false, 0, [], false,
          [EncodeFrame ⟨FrameData, 1, [9, 9]⟩], false⟩, 2, none) :=
  (stream_write_spec ⟨[⟨1, [], [], false⟩], [(1, 0)], 3, false, 0, [], false, [], false⟩
    0 [9, 9]).2.1 (by decide) (by decide)

lemma OpenStream_ok (m : Mux) (h1 : m.closed = false) (h2 : m.maxStreams = 0) :
    m.OpenStream =
      ({ m with nextID := (m.nextID + 2) % u32Mod,
                store := m.store ++ [newStream m.nextID],
                streams := assocSet m.nextID m.store.length m.streams,
                outQ := m.outQ ++ [EncodeFrame ⟨FrameOpenStream, m.nextID, []⟩] },
        .ok (m.nextID, m.store.length)) := by
  unfold Mux.OpenStream Mux.writeWS
  simp [h1, h2]

lemma openMany_ids (n : Nat) :
    ∀ m : Mux, m.closed = false → m.maxStreams = 0 → m.nextID < u32Mod →
    (Mux.openMany n m).2 = (List.range n).map (fun i => (m.nextID + 2 * i) % u32Mod)
    ∧ (Mux.openMany n m).1.closed = false
    ∧ (Mux.openMany n m).1.maxStreams = 0 := by
  induction n with
  | zero => intro m h1 h2 _; simp [Mux.openMany, h1, h2]
  | succ n ih =>
    intro m h1 h2 h3
    have hmod : (m.nextID + 2) % u32Mod < u32Mod := Nat.mod_lt _ (by decide)
    unfold Mux.openMany
    rw [OpenStream_ok m h1 h2]
    obtain ⟨hids, hcl, hmax⟩ :=
      ih { m with nextID := (m.nextID + 2) % u32Mod,
                  store := m.store ++ [newStream m.nextID],
                  streams := assocSet m.nextID m.store.length m.streams,
                  outQ := m.outQ ++ [EncodeFrame ⟨FrameOpenStream, m.nextID, []⟩] }
        h1 h2 hmod
    refine ⟨?_, hcl, hmax⟩
    simp only [hids, List.range_succ_eq_map, List.map_cons, List.map_map]
    have hu : u32Mod = 4294967296 := rfl
    congr 1
    · rw [hu] at h3 ⊢
      omega
    · apply List.map_congr_left
      intro i _
      simp only [Function.comp_apply]
      rw [Nat.mod_add_mod]
      congr 1
      omega

/-- C5: the IDs allocated by `n` successive OpenStream calls on a fresh
mux are `start, start+2, start+4, …` in uint32 arithmetic, where `start`
is 2 for the server (even) role and 1 for the client (odd) role; every
allocated ID has the role's parity. -/
theorem stream_id_parity (isServer : Bool) (n : Nat) :
    (Mux.openMany n (NewMux isServer)).2
      = (List.range n).map (fun i => ((if isServer then 2 else 1) + 2 * i) % u32Mod)
    ∧ ∀ id ∈ (Mux.openMany n (NewMux isServer)).2,
        id % 2 = if isServer then 0 else 1 := by
  have h := openMany_ids n (NewMux isServer) rfl rfl (by cases isServer <;> decide)
  have hstart : (NewMux isServer).nextID = if isServer then 2 else 1 := rfl
  rw [hstart] at h
  refine ⟨h.1, ?_⟩
  intro id hid
  rw [h.1] at hid
  simp only [List.mem_map, List.mem_range] at hid
  obtain ⟨i, _, rfl⟩ := hid
  have hdvd : (2 : Nat) ∣ u32Mod := by decide
  rw [Nat.mod_mod_of_dvd _ hdvd]
  cases isServer
  · simp only [if_false, Bool.false_eq_true]
    omega
  · simp only [if_true]
    omega

/-- C5 witness: the third stream opened by the client-role mux has ID 5,
an odd number. -/
theorem stream_id_parity_witness :
    (5 : Nat) % 2 = if false then 0 else 1 :=
  (stream_id_parity false 3).2 5 (by decide)

lemma makeCloseFn_store (st : Mux) (id : Nat) : (st.makeCloseFn id).store = st.store := by
  unfold Mux.makeCloseFn Mux.writeWS Mux.removeStream
  split <;> rfl

lemma Close_closed_noop (st : Mux) (h : Nat)
    (hc : (st.store.getD h (newStream 0)).closed = true) :
    Stream.Close st h = (st, none) := by
  simp only [Stream.Close]
  rw [if_pos hc]

lemma Close_sets_closed (m : Mux) (h : Nat) (hh : h < m.store.length) :
    ((Stream.Close m h).1.store.getD h (newStream 0)).closed = true := by
  by_cases hc : (m.store.getD h (newStream 0)).closed = true
  · rw [Close_closed_noop m h hc]
    exact hc
  · simp only [Stream.Close]
    rw [if_neg hc]
    simp only [makeCloseFn_store]
    simp only [Mux.closeReadAt]
    rw [getD_set_self _ _ _ _ hh]
    rfl

lemma Close_muxClosed_noQ (m : Mux) (h : Nat) (hm : m.closed = true) :
    (Stream.Close m h).1.outQ = m.outQ := by
  simp only [Stream.Close]
  split
  · rfl
  · simp only [Mux.makeCloseFn, Mux.writeWS, Mux.removeStream]
    rw [if_pos (show (m.closeReadAt h).closed = true from hm)]
    rfl

/-- C6 (amended): Stream.Close always returns success; a Close on an
already closed stream (whether the guard was consumed by an earlier Close,
by a remote CLOSE_STREAM via closeRead, or by mux shutdown) changes
nothing and enqueues nothing; the first Close of an open stream enqueues
exactly one CLOSE_STREAM frame when the mux is still live, and nothing
once the mux has shut down (the write path refuses); after a Close the
stream is closed, so a repeated Close is a no-op that again returns
success; and closeRead never enqueues any frame — both close paths share
the one closeOnce guard. -/
theorem close_idempotent (m : Mux) (h : Nat) :
    (Stream.Close m h).2 = none
    ∧ ((m.store.getD h (newStream 0)).closed = true → Stream.Close m h = (m, none))
    ∧ ((m.store.getD h (newStream 0)).closed = false → m.closed = false →
        (Stream.Close m h).1.outQ
          = m.outQ ++ [EncodeFrame ⟨FrameCloseStream, (m.store.getD h (newStream 0)).id, []⟩])
    ∧ (h < m.store.length → ((Stream.Close m h).1.store.getD h (newStream 0)).closed = true)
    ∧ (h < m.store.length →
        Stream.Close (Stream.Close m h).1 h = ((Stream.Close m h).1, none))
    ∧ (m.closeReadAt h).outQ = m.outQ
    ∧ (m.closed = true → (Stream.Close m h).1.outQ = m.outQ) := by
  refine ⟨?_, ?_, ?_, ?_, ?_, ?_, fun hm => Close_muxClosed_noQ m h hm⟩
  · simp only [Stream.Close]
    split <;> rfl
  · intro hc
    exact Close_closed_noop m h hc
  · intro hc hm
    simp only [Stream.Close]
    rw [if_neg (by rw [hc]; simp)]
    simp only [Mux.makeCloseFn, Mux.writeWS, Mux.removeStream, Mux.closeReadAt]
    rw [if_neg (show ¬(m.closed = true) by rw [hm]; simp)]
  · intro hh
    exact Close_sets_closed m h hh
  · intro hh
    exact Close_closed_noop _ h (Close_sets_closed m h hh)
  · rfl

/-- C6 witness: the first Close of a live stream enqueues one CLOSE_STREAM
frame for its ID. -/
theorem close_idempotent_witness :
    (Stream.Close ⟨[⟨1, [], [], false⟩], [(1, 0)], 3, false, 0, [], false, [], false⟩ 0).1.outQ
      = [EncodeFrame ⟨FrameCloseStream, 1, []⟩] :=
  (close_idempotent ⟨[⟨1, [], [], false⟩], [(1, 0)], 3, false, 0, [], false, [], false⟩
    0).2.2.1 (by decide) (by decide)

/-- C6 counterexample to the claim as stated: a stream displaced from the
registry by a remote duplicate OPEN_STREAM survives mux shutdown with its
closeOnce guard intact; its first local Close then enqueues no
CLOSE_STREAM frame at all, so "exactly one CLOSE_STREAM frame is enqueued
on the first local Close" fails. -/
theorem close_idempotent_cex :
    (((Mux.handleOpenStream (Mux.handleOpenStream (NewMux true) 5) 5).shutdown).store.getD 0
        (newStream 0)).closed = false
    ∧ (Stream.Close ((Mux.handleOpenStream (Mux.handleOpenStream (NewMux true) 5) 5).shutdown)
        0).1.outQ = [] := by
  decide

/-- C7: an inbound DATA frame for an ID absent from the registry, and an
inbound CLOSE_STREAM frame for an absent ID, are silently dropped — the
mux state (store, registry, next-ID counter, accept queue, outbound
queue) is returned unchanged, so no error surfaces and no frame is sent
in response. -/
theorem unknown_stream_dropped (m : Mux) (id : Nat) (p : List Nat)
    (hun : assocGet id m.streams = none) :
    m.handleData id p = m ∧ m.handleCloseStream id = m := by
  unfold Mux.handleData Mux.handleCloseStream
  rw [hun]
  exact ⟨rfl, rfl⟩

/-- C7 witness: a DATA and a CLOSE_STREAM frame for ID 7 on a mux with an
empty registry leave the state untouched. -/
theorem unknown_stream_dropped_witness :
    Mux.handleData (NewMux true) 7 [1] = NewMux true
      ∧ Mux.handleCloseStream (NewMux true) 7 = NewMux true :=
  unknown_stream_dropped (NewMux true) 7 [1] rfl

lemma decode_ok_length (input : List Nat) (f : Frame)
    (hd : (DecodeFrame input).1 = .ok f) : ¬input.length < frameHeaderSize := by
  rcases input with _ | ⟨t, _ | ⟨b1, _ | ⟨b2, _ | ⟨b3, _ | ⟨b4, _ | ⟨b5, _ | ⟨b6,
    _ | ⟨b7, _ | ⟨b8, rest⟩⟩⟩⟩⟩⟩⟩⟩⟩ <;>
    try (simp [DecodeFrame] at hd)
  simp only [List.length_cons, frameHeaderSize]
  omega

/-- C8: when the reader loop processes a message that decodes to a PING
frame on a live mux, it enqueues exactly one PONG frame (stream ID 0,
empty payload) on the outbound queue — changing nothing else — before it
processes any further inbound message; no user code is involved. -/
theorem ping_pong (m : Mux) (msg : List Nat) (msgs : List (List Nat)) (f : Frame)
    (hopen : m.closed = false) (hdec : (DecodeFrame msg).1 = .ok f)
    (hty : f.type = FramePing) :
    Mux.processMsgs m (msg :: msgs)
      = Mux.processMsgs { m with outQ := m.outQ ++ [EncodeFrame ⟨FramePong, 0, []⟩] } msgs := by
  have hlen := decode_ok_length msg f hdec
  unfold Mux.processMsgs
  simp only [List.foldl_cons]
  congr 1
  unfold Mux.readStep
  rw [if_neg hlen, hdec]
  show (if m.closed = true then m else m.dispatch f) = _
  rw [if_neg (by rw [hopen]; simp)]
  unfold Mux.dispatch
  rw [hty]
  rw [if_neg (by decide), if_neg (by decide), if_neg (by decide), if_pos rfl]
  unfold Mux.handlePing Mux.writeWS
  rw [if_neg (by rw [hopen]; simp)]

/-- C8 witness: a PING message on a fresh client mux leaves exactly one
PONG frame on the outbound queue. -/
theorem ping_pong_witness :
    Mux.processMsgs (NewMux false) [[0x04, 0, 0, 0, 0, 0, 0, 0, 0]]
      = { NewMux false with outQ := [EncodeFrame ⟨FramePong, 0, []⟩] } :=
  ping_pong (NewMux false) [0x04, 0, 0, 0, 0, 0, 0, 0, 0] [] ⟨0x04, 0, []⟩
    rfl rfl rfl

/-! ### Shutdown lemmas -/

lemma closeReadAt_length (m : Mux) (h : Nat) :
    (m.closeReadAt h).store.length = m.store.length := by
  simp [Mux.closeReadAt]

lemma closeReadAt_closed_preserved (m : Mux) (h h' : Nat)
    (hc : (m.store.getD h (newStream 0)).closed = true) :
    ((m.closeReadAt h').store.getD h (newStream 0)).closed = true := by
  by_cases he : h' = h
  · subst he
    by_cases hlt : h' < m.store.length
    · simp only [Mux.closeReadAt]
      rw [getD_set_self _ _ _ _ hlt]
      rfl
    · rw [List.getD_eq_default _ _ (le_of_not_lt hlt)] at hc
      simp [newStream] at hc
  · simp only [Mux.closeReadAt]
    rw [getD_set_ne _ _ _ _ _ he]
    exact hc

lemma closeReadAt_sets (m : Mux) (h : Nat) (hlt : h < m.store.length) :
    ((m.closeReadAt h).store.getD h (newStream 0)).closed = true := by
  simp only [Mux.closeReadAt]
  rw [getD_set_self _ _ _ _ hlt]
  rfl

lemma foldl_closeReadAt_length (hs : List Nat) :
    ∀ m : Mux, (hs.foldl Mux.closeReadAt m).store.length = m.store.length := by
  induction hs with
  | nil => intro m; rfl
  | cons x xs ih =>
    intro m
    simp only [List.foldl_cons]
    rw [ih, closeReadAt_length]

lemma foldl_closeReadAt_preserved (hs : List Nat) :
    ∀ (m : Mux) (h : Nat), (m.store.getD h (newStream 0)).closed = true →
      ((hs.foldl Mux.closeReadAt m).store.getD h (newStream 0)).closed = true := by
  induction hs with
  | nil => intro m h hc; exact hc
  | cons x xs ih =>
    intro m h hc
    simp only [List.foldl_cons]
    exact ih _ h (closeReadAt_closed_preserved m h x hc)

lemma foldl_closeReadAt_closes (hs : List Nat) :
    ∀ (m : Mux) (h : Nat), h ∈ hs → h < m.store.length →
      ((hs.foldl Mux.closeReadAt m).store.getD h (newStream 0)).closed = true := by
  induction hs with
  | nil => intro m h hmem; simp at hmem
  | cons x xs ih =>
    intro m h hmem hlt
    simp only [List.foldl_cons]
    rcases List.mem_cons.mp hmem with he | hxs
    · subst he
      exact foldl_closeReadAt_preserved xs _ h (closeReadAt_sets m h hlt)
    · exact ih _ h hxs (by rw [closeReadAt_length]; exact hlt)

lemma foldl_closeReadAt_fields (hs : List Nat) :
    ∀ m : Mux, (hs.foldl Mux.closeReadAt m).closed = m.closed
      ∧ (hs.foldl Mux.closeReadAt m).acceptBuf = m.acceptBuf := by
  induction hs with
  | nil => intro m; exact ⟨rfl, rfl⟩
  | cons x xs ih =>
    intro m
    simp only [List.foldl_cons]
    exact ih (m.closeReadAt x)

/-- C9 (amended): after shutdown of a live mux, OpenStream returns
ErrMuxClosed; AcceptStream — with the accept queue's buffer empty —
can only return ErrMuxClosed (with streams still buffered from before the
shutdown, Go's select may first deliver those); and Write on a stream
that was registered at shutdown returns (0, ErrStreamClosed), because
shutdown closes the read side of every registered stream before any
later Write can observe the mux-closed signal. None of the three
operations blocks: each is total on the post-shutdown state. -/
theorem mux_closed_after_shutdown (m : Mux) (id h : Nat) (p : List Nat)
    (hopen : m.closed = false) (hreg : assocGet id m.streams = some h)
    (hh : h < m.store.length) (hbuf : m.acceptBuf = []) :
    (m.shutdown.OpenStream).2 = .error .muxClosed
    ∧ (∀ r, AcceptCan m.shutdown r → r = .error .muxClosed)
    ∧ Stream.Write m.shutdown h p = (m.shutdown, 0, some .streamClosed) := by
  have hnc : ¬(m.closed = true) := by rw [hopen]; simp
  have hcl : m.shutdown.closed = true := by
    unfold Mux.shutdown
    rw [if_neg hnc]
  have hab : m.shutdown.acceptBuf = [] := by
    unfold Mux.shutdown
    rw [if_neg hnc]
    show ((m.streams.map Prod.snd).foldl Mux.closeReadAt m).acceptBuf = []
    rw [(foldl_closeReadAt_fields _ m).2, hbuf]
  have hst : (m.shutdown.store.getD h (newStream 0)).closed = true := by
    unfold Mux.shutdown
    rw [if_neg hnc]
    show (((m.streams.map Prod.snd).foldl Mux.closeReadAt m).store.getD h
      (newStream 0)).closed = true
    exact foldl_closeReadAt_closes _ m h (assocGet_mem_values id h m.streams hreg) hh
  refine ⟨?_, ?_, ?_⟩
  · unfold Mux.OpenStream
    rw [if_pos hcl]
  · intro r hr
    cases hr with
    | deliver hd td heq => rw [hab] at heq; exact absurd heq (by simp)
    | chClosed h1 h2 => rfl
    | muxClosed h1 => rfl
  · simp only [Stream.Write]
    rw [if_pos hst]

/-- C9 amended-claim witness: shutdown of a one-stream client mux, then
OpenStream, AcceptStream and Write all behave as stated. -/
theorem mux_closed_after_shutdown_witness :
    Stream.Write
        (Mux.shutdown ⟨[⟨1, [], [], false⟩], [(1, 0)], 3, false, 0, [], false, [], false⟩)
        0 [5]
      = (Mux.shutdown ⟨[⟨1, [], [], false⟩], [(1, 0)], 3, false, 0, [], false, [], false⟩,
          0, some .streamClosed) :=
  (mux_closed_after_shutdown ⟨[⟨1, [], [], false⟩], [(1, 0)], 3, false, 0, [], false, [], false⟩
    1 0 [5] rfl (by decide) (by decide) rfl).2.2

/-- C9 counterexample to the claim as stated, in both of its failing
clauses. Write: open a stream on a fresh client mux, shut the mux down,
then Write on that stream — the claim says Write surfaces ErrMuxClosed,
but the code returns ErrStreamClosed, because shutdown closed the
stream's read side and Stream.Write checks the stream's own closed
channel first. AcceptStream: let the remote open a stream (queued on the
accept channel, never accepted) and shut the mux down — the accept
channel's buffer still holds that stream, so the select in AcceptStream
may deliver it, and the call returns the stream, not ErrMuxClosed as the
claim demands of every subsequent call. -/
theorem mux_closed_after_shutdown_cex :
    (Stream.Write ((Mux.OpenStream (NewMux false)).1.shutdown) 0 [1]).2.2
        = some .streamClosed
    ∧ (Stream.Write ((Mux.OpenStream (NewMux false)).1.shutdown) 0 [1]).2.2
        ≠ some .muxClosed
    ∧ AcceptCan ((Mux.handleOpenStream (NewMux false) 5).shutdown)
        (.ok (0, { (Mux.handleOpenStream (NewMux false) 5).shutdown with acceptBuf := [] }))
    ∧ (Except.ok (0, { (Mux.handleOpenStream (NewMux false) 5).shutdown with acceptBuf := [] })
        : Except Err (Nat × Mux)) ≠ .error .muxClosed := by
  refine ⟨by decide, by decide, ?_, fun hcontra => Except.noConfusion hcontra⟩
  exact AcceptCan.deliver _ 0 [] (by decide)

/-- C10: an inbound OPEN_STREAM whose ID is already registered builds a
fresh stream, overwrites the registry entry (ErrStreamExists is declared
in mux.go but unreachable — `Mux.handleOpenStream` is total and returns
no error), and enqueues the new stream on the accept queue; the stream
previously registered under that ID is left untouched (not closed, not
torn down), and a subsequent DATA frame for that ID is delivered to the
new stream only. -/
theorem open_stream_overwrites (m : Mux) (id h0 : Nat) (p : List Nat)
    (hreg : assocGet id m.streams = some h0) (hh : h0 < m.store.length)
    (hopen : m.closed = false) :
    assocGet id (m.handleOpenStream id).streams = some m.store.length
    ∧ (m.handleOpenStream id).store.getD h0 (newStream 0) = m.store.getD h0 (newStream 0)
    ∧ (m.handleOpenStream id).acceptBuf = m.acceptBuf ++ [m.store.length]
    ∧ ((m.handleOpenStream id).handleData id p).store.getD m.store.length (newStream 0)
        = { newStream id with dataQ := [p] }
    ∧ ((m.handleOpenStream id).handleData id p).store.getD h0 (newStream 0)
        = m.store.getD h0 (newStream 0) := by
  have hos : m.handleOpenStream id =
      { m with store := m.store ++ [newStream id],
               streams := assocSet id m.store.length m.streams,
               acceptBuf := m.acceptBuf ++ [m.store.length] } := by
    unfold Mux.handleOpenStream
    rw [if_neg (show ¬(m.closed = true) by rw [hopen]; simp)]
  rw [hos]
  have hne : m.store.length ≠ h0 := by omega
  have hdata : (Mux.handleData
      { m with store := m.store ++ [newStream id],
               streams := assocSet id m.store.length m.streams,
               acceptBuf := m.acceptBuf ++ [m.store.length] } id p).store
      = (m.store ++ [newStream id]).set m.store.length
          (((m.store ++ [newStream id]).getD m.store.length (newStream 0)).pushData p) := by
    unfold Mux.handleData
    rw [assocGet_assocSet_self]
  refine ⟨assocGet_assocSet_self _ _ _, ?_, rfl, ?_, ?_⟩
  · exact List.getD_append _ _ _ _ hh
  · rw [hdata]
    rw [getD_set_self _ _ _ _ (by simp)]
    rw [List.getD_append_right _ _ _ _ (Nat.le_refl _)]
    simp only [Nat.sub_self]
    try rfl
  · rw [hdata]
    rw [getD_set_ne _ _ _ _ _ hne]
    exact List.getD_append _ _ _ _ hh

/-- C10 witness: ID 5 already registered to the stream at handle 0; the
remote opens ID 5 again; the registry now maps 5 to the new handle 1. -/
theorem open_stream_overwrites_witness :
    assocGet 5 ((Mux.handleOpenStream
        ⟨[⟨5, [], [], false⟩], [(5, 0)], 2, true, 0, [], false, [], false⟩ 5).streams)
      = some 1 :=
  (open_stream_overwrites ⟨[⟨5, [], [], false⟩], [(5, 0)], 2, true, 0, [], false, [], false⟩
    5 0 [9] (by decide) (by decide) rfl).1

end Protocol
